import Mathlib

/-
Verification of the DermoLink patient-record store, session state and AI
gateway fallback logic, shallowly embedded from the TypeScript sources:
  src/services/storageService.ts   (record store over one local-storage key)
  src/services/geminiService.ts    (AI gateway: analyzeLesion, verifySkinPhoto)
  src/context/AuthContext.tsx      (session role/identity over two keys)
  src/types.ts                     (data model)
Local storage is modelled per key: the roster key holds an optional roster
(`none` = no blob yet); JSON stringify/parse round-trips are the identity on
these records, so the blob is modelled by the roster value itself.  JavaScript
numbers are modelled by rationals, JS `Date.now()` by an explicit clock
argument, and thrown transport errors by `Except.error`.
-/

namespace DermoLink

/-- The `status` union type of `PatientRecord` in src/types.ts:
`Critical | Stable | Improving | New`. -/
inductive PatientStatus where
  | Critical
  | Stable
  | Improving
  | New
deriving DecidableEq, Repr

/-- `AnalysisResult` from src/types.ts.  `probabilities` is a
`Record<string, number>`, modelled as an association list. -/
structure AnalysisResult where
  diagnosis : String
  confidence : ℚ
  severity : String
  probabilities : List (String × ℚ)
  recommendations : List String
  features : List String
deriving DecidableEq, Repr

/-- `HistoryEntry` from src/types.ts. -/
structure HistoryEntry where
  date : String
  imageUrl : String
  processedImageUrl : Option String
  notes : String
  severityScore : ℚ
  analysisResult : Option AnalysisResult
deriving DecidableEq, Repr

/-- `Message` from src/types.ts (timestamp modelled as epoch milliseconds). -/
structure Message where
  id : String
  role : String
  text : String
  timestamp : Int
deriving DecidableEq, Repr

/-- `PatientRecord` from src/types.ts. -/
structure PatientRecord where
  id : String
  name : String
  age : Nat
  condition : String
  lastUpdate : String
  status : PatientStatus
  img : String
  history : List HistoryEntry
  messages : Option (List Message)
deriving DecidableEq, Repr

/-- The fixed local-storage key of the roster blob (storageService.ts). -/
def STORAGE_KEY : String := "DERMOLINK_PATIENTS_V1"

/-- First seed record of `SEED_DATA` (storageService.ts). -/
def seedAlice : PatientRecord :=
  { id := "1"
    name := "Alice Johnson"
    age := 34
    condition := "Melanocytic Nevus"
    lastUpdate := "2 days ago"
    status := PatientStatus.Stable
    img := "https://picsum.photos/400/400?random=1"
    history :=
      [ { date := "2024-05-15"
          imageUrl := "https://picsum.photos/150/150?random=101"
          processedImageUrl := none
          notes := "Lesion shows slight redness, but no significant increase in size. Continuing topical application recommended."
          severityScore := 4
          analysisResult := none }
      , { date := "2024-05-12"
          imageUrl := "https://picsum.photos/150/150?random=102"
          processedImageUrl := none
          notes := "Initial scan after medication change. Edges appear well-defined compared to previous week."
          severityScore := 5
          analysisResult := none } ]
    messages := none }

/-- Second seed record of `SEED_DATA` (storageService.ts). -/
def seedRobert : PatientRecord :=
  { id := "2"
    name := "Robert Smith"
    age := 52
    condition := "Basal Cell Carcinoma"
    lastUpdate := "Yesterday"
    status := PatientStatus.Critical
    img := "https://picsum.photos/400/400?random=2"
    history := []
    messages := none }

/-- Third seed record of `SEED_DATA` (storageService.ts). -/
def seedMaria : PatientRecord :=
  { id := "3"
    name := "Maria Garcia"
    age := 28
    condition := "Eczema"
    lastUpdate := "1 week ago"
    status := PatientStatus.Improving
    img := "https://picsum.photos/400/400?random=3"
    history := []
    messages := none }

/-- `SEED_DATA` (storageService.ts). -/
def SEED_DATA : List PatientRecord := [seedAlice, seedRobert, seedMaria]

/-- The value of local storage at `STORAGE_KEY`: `none` when no blob has been
written yet, `some roster` once one has. -/
abbrev Store := Option (List PatientRecord)

/-- `getPatients` (storageService.ts): when no blob is stored, writes the seed
roster and returns it; otherwise parses and returns the stored roster.  Returns
the roster together with local storage after the call. -/
def getPatients (s : Store) : List PatientRecord × Store :=
  match s with
  | none => (SEED_DATA, some SEED_DATA)
  | some ps => (ps, some ps)

/-- `getPatient` (storageService.ts): `getPatients().find(p => p.id === id)`. -/
def getPatient (id : String) (s : Store) : Option PatientRecord × Store :=
  let r := getPatients s
  (r.1.find? (fun p => p.id == id), r.2)

/-- `Omit<PatientRecord, 'id' | 'history'>`: the submitted fields of
`addPatient` (storageService.ts). -/
structure PatientFields where
  name : String
  age : Nat
  condition : String
  lastUpdate : String
  status : PatientStatus
  img : String
  messages : Option (List Message)
deriving DecidableEq, Repr

/-- `addPatient` (storageService.ts): id is `Date.now().toString()` (the clock
is the explicit `now` argument), history starts empty, and the new record is
unshifted onto the roster, which is then persisted. -/
def addPatient (patient : PatientFields) (now : Nat) (s : Store) :
    PatientRecord × Store :=
  let r := getPatients s
  let newPatient : PatientRecord :=
    { id := toString now
      name := patient.name
      age := patient.age
      condition := patient.condition
      lastUpdate := patient.lastUpdate
      status := patient.status
      img := patient.img
      history := []
      messages := patient.messages }
  (newPatient, some (newPatient :: r.1))

/-- The status recomputation in `addHistoryEntry` (storageService.ts):
`if (entry.severityScore > 7) Critical; else if (> 4) Stable; else Improving`. -/
def computeStatus (score : ℚ) : PatientStatus :=
  if score > 7 then PatientStatus.Critical
  else if score > 4 then PatientStatus.Stable
  else PatientStatus.Improving

/-- The in-place mutation of the matched record in `addHistoryEntry`
(storageService.ts): unshift the entry, stamp `lastUpdate`, recompute status. -/
def applyEntry (p : PatientRecord) (entry : HistoryEntry) : PatientRecord :=
  { p with
    history := entry :: p.history
    lastUpdate := "Just now"
    status := computeStatus entry.severityScore }

/-- `patients.findIndex(p => p.id === patientId)` followed by in-place update
of that slot: rewrite the first record whose id matches, `none` when no record
matches. -/
def updateFirst (pid : String) (f : PatientRecord → PatientRecord) :
    List PatientRecord → Option (List PatientRecord)
  | [] => none
  | p :: ps =>
      if p.id == pid then some (f p :: ps)
      else
        match updateFirst pid f ps with
        | some ps2 => some (p :: ps2)
        | none => none

/-- `addHistoryEntry` (storageService.ts): if some record matches `patientId`,
update it and persist the roster; otherwise leave the roster as `getPatients`
left it (the function neither throws nor writes a changed roster). -/
def addHistoryEntry (patientId : String) (entry : HistoryEntry) (s : Store) :
    Store :=
  let r := getPatients s
  match updateFirst patientId (fun p => applyEntry p entry) r.1 with
  | some ps => some ps
  | none => r.2

/-- In-memory session state of `AuthProvider` (AuthContext.tsx): the role
string (the `UserRole` enum is string-valued at runtime: `"PATIENT"`,
`"DOCTOR"`, `"NONE"`) and the identity payload (`none` = null, `some d` = the
JSON serialization of the stored object). -/
structure AuthState where
  role : String
  user : Option String
deriving DecidableEq, Repr

/-- The two persisted keys `dermolink_role` and `dermolink_user`
(AuthContext.tsx); `none` means the key is absent. -/
structure AuthStorage where
  roleKey : Option String
  userKey : Option String
deriving DecidableEq, Repr

/-- JavaScript truthiness of `localStorage.getItem`: `null` and the empty
string are falsy, every other string is truthy. -/
def jsTruthy : Option String → Bool
  | none => false
  | some s => s != ""

/-- The mount effect of `AuthProvider` (AuthContext.tsx): read both keys; when
the stored role is truthy and not `"NONE"`, restore it, and restore the parsed
user payload when that is truthy; otherwise keep the initial state
(role `"NONE"`, user null). -/
def initSession (st : AuthStorage) : AuthState :=
  if jsTruthy st.roleKey && st.roleKey != some "NONE" then
    { role := st.roleKey.getD ""
      user := if jsTruthy st.userKey then st.userKey else none }
  else
    { role := "NONE", user := none }

/-- `login` (AuthContext.tsx): set role and user in memory, persist the role
key, and persist the user key only when `userData` is truthy (an actual
payload object; when absent the stored user key is left untouched). -/
def login (newRole : String) (userData : Option String) (st : AuthStorage) :
    AuthState × AuthStorage :=
  ({ role := newRole, user := userData },
   { roleKey := some newRole
     userKey :=
       match userData with
       | some d => some d
       | none => st.userKey })

/-- `logout` (AuthContext.tsx): reset role to `"NONE"`, clear the user, and
remove both persisted keys. -/
def logout (_st : AuthStorage) : AuthState × AuthStorage :=
  ({ role := "NONE", user := none }, { roleKey := none, userKey := none })

/-- The literal fallback result of `analyzeLesion` (geminiService.ts). -/
def fallbackAnalysis : AnalysisResult :=
  { diagnosis := "Analysis Failed"
    confidence := 0
    probabilities := [("Unknown", 1)]
    severity := "Low"
    recommendations := ["Manual review required"]
    features := [] }

/-- `analyzeLesion` (geminiService.ts).  `call` is the model invocation:
`Except.error` is a thrown transport error, `Except.ok t` a response whose
`.text` field is `t` (absent, or a string).  `parse` is `JSON.parse` into
`AnalysisResult` (`none` = parse throws).  A falsy (absent or empty) text
throws `"No data returned"`; every throw is caught and mapped to the
fallback result. -/
def analyzeLesion (call : Except Unit (Option String))
    (parse : String → Option AnalysisResult) : AnalysisResult :=
  match call with
  | Except.error _ => fallbackAnalysis
  | Except.ok none => fallbackAnalysis
  | Except.ok (some s) =>
      if s == "" then fallbackAnalysis
      else
        match parse s with
        | some r => r
        | none => fallbackAnalysis

/-- JavaScript `String.prototype.toUpperCase` (character-wise upper-casing). -/
def jsToUpper (s : String) : String := String.mk (s.data.map Char.toUpper)

/-- JavaScript `String.prototype.trim`: strip whitespace from both ends. -/
def jsTrim (s : String) : String :=
  String.mk
    (((s.data.dropWhile Char.isWhitespace).reverse.dropWhile
        Char.isWhitespace).reverse)

/-- JavaScript `hay.includes(needle)` on the underlying character lists. -/
def hasSubList (needle : List Char) : List Char → Bool
  | [] => needle.isEmpty
  | c :: t => needle.isPrefixOf (c :: t) || hasSubList needle t

/-- JavaScript `String.prototype.includes`. -/
def containsText (hay needle : String) : Bool :=
  hasSubList needle.data hay.data

/-- `verifySkinPhoto` (geminiService.ts): on a thrown transport error, return
`true` (the fail-open fallback); on a response with no `.text`, the optional
chain yields undefined and `?? false` returns `false`; otherwise return
whether the trimmed, upper-cased text includes `"YES"`. -/
def verifySkinPhoto (call : Except Unit (Option String)) : Bool :=
  match call with
  | Except.error _ => true
  | Except.ok none => false
  | Except.ok (some s) => containsText (jsToUpper (jsTrim s)) "YES"

/-- A concrete history entry used to exercise the store at given severity. -/
def testEntry (score : ℚ) : HistoryEntry :=
  { date := "2024-06-01"
    imageUrl := "img"
    processedImageUrl := none
    notes := "note"
    severityScore := score
    analysisResult := none }

/-- Concrete submitted fields used to exercise `addPatient`. -/
def testFields : PatientFields :=
  { name := "Test Person"
    age := 40
    condition := "Acne"
    lastUpdate := "today"
    status := PatientStatus.New
    img := "img"
    messages := none }

/-- Reading the store a second time after `getPatients` changes nothing: the
write in the seeding branch persists exactly the roster that is returned. -/
theorem getPatients_snd (s : Store) : getPatients (getPatients s).2 = getPatients s := by
  cases s <;> rfl

/-- `updateFirst` fails exactly when `find?` fails: the `findIndex` miss of
`addHistoryEntry` coincides with the `find` miss of `getPatient`. -/
theorem updateFirst_none_iff (pid : String) (f : PatientRecord → PatientRecord)
    (l : List PatientRecord) :
    updateFirst pid f l = none ↔ l.find? (fun p => p.id == pid) = none := by
  induction l with
  | nil => simp [updateFirst, List.find?]
  | cons p ps ih =>
      cases h : (p.id == pid) with
      | true => simp [updateFirst, List.find?_cons, h]
      | false =>
          simp only [updateFirst, List.find?_cons, h, Bool.false_eq_true, if_false]
          cases hps : updateFirst pid f ps with
          | some ps2 =>
              exact iff_of_false (by simp)
                (fun hfind => by
                  have h2 := ih.mpr hfind
                  rw [hps] at h2
                  cases h2)
          | none =>
              simp only [hps]
              simpa using ih.mp hps

/-- When `find?` hits a record, `updateFirst` rewrites that first hit (and only
then), and the rewritten record is the new first hit, provided the rewrite
preserves the id. -/
theorem find?_updateFirst (pid : String) (f : PatientRecord → PatientRecord)
    (hid : ∀ p, (f p).id = p.id)
    (l : List PatientRecord) (p : PatientRecord)
    (h : l.find? (fun q => q.id == pid) = some p) :
    ∃ l2, updateFirst pid f l = some l2 ∧
      l2.find? (fun q => q.id == pid) = some (f p) := by
  induction l with
  | nil => simp [List.find?] at h
  | cons a t ih =>
      cases ha : (a.id == pid) with
      | true =>
          simp only [List.find?_cons, ha] at h
          obtain rfl : a = p := by injection h
          refine ⟨f a :: t, ?_, ?_⟩
          · simp [updateFirst, ha]
          · simp only [List.find?_cons, hid a, ha]
      | false =>
          simp only [List.find?_cons, ha] at h
          obtain ⟨t2, ht2, hf⟩ := ih h
          refine ⟨a :: t2, ?_, ?_⟩
          · simp [updateFirst, ha, ht2]
          · simp only [List.find?_cons, ha]
            exact hf

/-- Frame shape of `updateFirst`: records before the first id match and records
after it are returned untouched, in order. -/
theorem updateFirst_append (pid : String) (f : PatientRecord → PatientRecord)
    (l₁ : List PatientRecord) (p : PatientRecord) (l₂ : List PatientRecord)
    (h₁ : ∀ q ∈ l₁, q.id ≠ pid) (hp : p.id = pid) :
    updateFirst pid f (l₁ ++ p :: l₂) = some (l₁ ++ f p :: l₂) := by
  induction l₁ with
  | nil => simp [updateFirst, hp]
  | cons a t ih =>
      have ha : (a.id == pid) = false := by
        simpa using h₁ a (by simp)
      have ih2 := ih (fun q hq => h₁ q (List.mem_cons_of_mem a hq))
      simp [updateFirst, ha, ih2]

/-- `hasSubList` decides substring containment: it holds exactly when the
needle occurs contiguously inside the haystack. -/
theorem hasSubList_iff (needle hay : List Char) :
    hasSubList needle hay = true ↔ needle <:+: hay := by
  induction hay with
  | nil => simp [hasSubList, List.isEmpty_iff, List.infix_nil]
  | cons c t ih =>
      simp [hasSubList, Bool.or_eq_true, List.isPrefixOf_iff_prefix, ih,
        List.infix_cons_iff]

/-- Claim C1: for every existing patient id and every history entry,
`addHistoryEntry` recomputes the record's status from the entry's
`severityScore` by a fixed total ordering: score > 7 yields Critical,
4 < score ≤ 7 yields Stable, score ≤ 4 yields Improving; scores 8, 5, 2 map
to Critical, Stable, Improving, and the boundary scores 7 and 4 map to Stable
and Improving. -/
theorem addHistoryEntry_status_recompute :
    (∀ (pid : String) (e : HistoryEntry) (s : Store) (p : PatientRecord),
      (getPatient pid s).1 = some p →
      ∃ q, (getPatient pid (addHistoryEntry pid e s)).1 = some q ∧
        q.status = computeStatus e.severityScore) ∧
    (∀ score : ℚ,
      (7 < score → computeStatus score = PatientStatus.Critical) ∧
      (4 < score → score ≤ 7 → computeStatus score = PatientStatus.Stable) ∧
      (score ≤ 4 → computeStatus score = PatientStatus.Improving)) ∧
    computeStatus 8 = PatientStatus.Critical ∧
    computeStatus 5 = PatientStatus.Stable ∧
    computeStatus 2 = PatientStatus.Improving ∧
    computeStatus 7 = PatientStatus.Stable ∧
    computeStatus 4 = PatientStatus.Improving := by
  refine ⟨?_, ?_, by decide, by decide, by decide, by decide, by decide⟩
  · intro pid e s p h
    simp only [getPatient] at h
    obtain ⟨l2, hu, hf⟩ :=
      find?_updateFirst pid (fun q => applyEntry q e) (fun _ => rfl)
        (getPatients s).1 p h
    have hstep : addHistoryEntry pid e s = some l2 := by
      show (match updateFirst pid (fun q => applyEntry q e) (getPatients s).1 with
            | some ps => some ps
            | none => (getPatients s).2) = some l2
      rw [hu]
    refine ⟨applyEntry p e, ?_, rfl⟩
    rw [hstep]
    exact hf
  · intro score
    refine ⟨fun h => ?_, fun h4 h7 => ?_, fun h => ?_⟩
    · simp [computeStatus, h]
    · simp [computeStatus, not_lt.mpr h7, h4]
    · simp [computeStatus, not_lt.mpr h,
        not_lt.mpr (h.trans (by norm_num : (4 : ℚ) ≤ 7))]

/-- Witness for C1: adding an entry with score 8 to seeded patient "3" yields
a record whose status is the recomputed one. -/
theorem addHistoryEntry_status_recompute_witness :
    ∃ q, (getPatient "3" (addHistoryEntry "3" (testEntry 8) (some SEED_DATA))).1 = some q ∧
      q.status = computeStatus (testEntry 8).severityScore :=
  addHistoryEntry_status_recompute.1 "3" (testEntry 8) (some SEED_DATA) seedMaria
    (by decide)

/-- Claim C2: for every patient id present in the store and every entry `e`,
`addHistoryEntry id e` prepends `e` to that record's history and stamps
`lastUpdate` with the "Just now" marker, so afterwards the record found by
`getPatient id` has `e` as its head entry and a history longer by exactly 1. -/
theorem addHistoryEntry_prepends (pid : String) (e : HistoryEntry) (s : Store)
    (p : PatientRecord) (h : (getPatient pid s).1 = some p) :
    ∃ q, (getPatient pid (addHistoryEntry pid e s)).1 = some q ∧
      q.history = e :: p.history ∧
      q.history.head? = some e ∧
      q.history.length = p.history.length + 1 ∧
      q.lastUpdate = "Just now" := by
  simp only [getPatient] at h
  obtain ⟨l2, hu, hf⟩ :=
    find?_updateFirst pid (fun q => applyEntry q e) (fun _ => rfl)
      (getPatients s).1 p h
  have hstep : addHistoryEntry pid e s = some l2 := by
    show (match updateFirst pid (fun q => applyEntry q e) (getPatients s).1 with
          | some ps => some ps
          | none => (getPatients s).2) = some l2
    rw [hu]
  refine ⟨applyEntry p e, ?_, rfl, rfl, by simp [applyEntry], rfl⟩
  rw [hstep]
  exact hf

/-- Witness for C2 at seeded patient "1" of the seeded store. -/
theorem addHistoryEntry_prepends_witness :
    ∃ q, (getPatient "1" (addHistoryEntry "1" (testEntry 6) (some SEED_DATA))).1 = some q ∧
      q.history = testEntry 6 :: seedAlice.history ∧
      q.history.head? = some (testEntry 6) ∧
      q.history.length = seedAlice.history.length + 1 ∧
      q.lastUpdate = "Just now" :=
  addHistoryEntry_prepends "1" (testEntry 6) (some SEED_DATA) seedAlice (by decide)

/-- Claim C3: for every `patientId` matching no record, `addHistoryEntry` is a
no-op that does not throw (it is a total function into `Store`): the roster is
unchanged, every lookup is unchanged, and when a blob already exists the
stored state is literally unchanged. -/
theorem addHistoryEntry_unknown_id_noop (pid : String) (e : HistoryEntry)
    (s : Store) (h : (getPatient pid s).1 = none) :
    (getPatients (addHistoryEntry pid e s)).1 = (getPatients s).1 ∧
    (∀ q, (getPatient q (addHistoryEntry pid e s)).1 = (getPatient q s).1) ∧
    (∀ ps, s = some ps → addHistoryEntry pid e s = s) := by
  simp only [getPatient] at h
  have hu : updateFirst pid (fun q => applyEntry q e) (getPatients s).1 = none :=
    (updateFirst_none_iff pid _ _).mpr h
  have hs : addHistoryEntry pid e s = (getPatients s).2 := by
    simp [addHistoryEntry, hu]
  refine ⟨?_, fun q => ?_, fun ps hps => ?_⟩
  · rw [hs, getPatients_snd]
  · simp only [getPatient]
    rw [hs, getPatients_snd]
  · subst hps
    exact hs

/-- Witness for C3: id "42" matches nothing in the seeded store and the store
is returned literally unchanged. -/
theorem addHistoryEntry_unknown_id_noop_witness :
    addHistoryEntry "42" (testEntry 1) (some SEED_DATA) = some SEED_DATA :=
  (addHistoryEntry_unknown_id_noop "42" (testEntry 1) (some SEED_DATA)
    (by decide)).2.2 SEED_DATA rfl

/-- Claim C9: `addHistoryEntry` modifies only the matched record's history,
`lastUpdate` and status fields; the matched record's id, name, age, condition,
img (and messages) are unchanged, and every other record of the roster is
unchanged, in its original position. -/
theorem addHistoryEntry_frame (pid : String) (e : HistoryEntry) (s : Store)
    (l₁ : List PatientRecord) (p : PatientRecord) (l₂ : List PatientRecord)
    (hdec : (getPatients s).1 = l₁ ++ p :: l₂)
    (h₁ : ∀ q ∈ l₁, q.id ≠ pid) (hp : p.id = pid) :
    (getPatients (addHistoryEntry pid e s)).1 = l₁ ++ applyEntry p e :: l₂ ∧
    (applyEntry p e).id = p.id ∧
    (applyEntry p e).name = p.name ∧
    (applyEntry p e).age = p.age ∧
    (applyEntry p e).condition = p.condition ∧
    (applyEntry p e).img = p.img ∧
    (applyEntry p e).messages = p.messages ∧
    (applyEntry p e).history = e :: p.history ∧
    (applyEntry p e).lastUpdate = "Just now" ∧
    (applyEntry p e).status = computeStatus e.severityScore := by
  have hu :
      updateFirst pid (fun q => applyEntry q e) (getPatients s).1 =
        some (l₁ ++ applyEntry p e :: l₂) := by
    rw [hdec]
    exact updateFirst_append pid _ l₁ p l₂ h₁ hp
  have hstep : addHistoryEntry pid e s = some (l₁ ++ applyEntry p e :: l₂) := by
    show (match updateFirst pid (fun q => applyEntry q e) (getPatients s).1 with
          | some ps => some ps
          | none => (getPatients s).2) = some (l₁ ++ applyEntry p e :: l₂)
    rw [hu]
  exact ⟨by rw [hstep]; rfl, rfl, rfl, rfl, rfl, rfl, rfl, rfl, rfl, rfl⟩

/-- Witness for C9: updating seeded patient "2" rewrites exactly the middle
record of the seed roster. -/
theorem addHistoryEntry_frame_witness :
    (getPatients (addHistoryEntry "2" (testEntry 9) (some SEED_DATA))).1 =
      [seedAlice] ++ applyEntry seedRobert (testEntry 9) :: [seedMaria] :=
  (addHistoryEntry_frame "2" (testEntry 9) (some SEED_DATA)
    [seedAlice] seedRobert [seedMaria] rfl (by decide) rfl).1

/-- Claim C6: `addPatient` allocates the clock-derived id, sets the history
empty, prepends the new record to the roster, persists it, and returns the
created record; a subsequent `getPatient` on the new id returns a record with
empty history and the submitted fields, and the id is unique in the roster
whenever the clock value collides with no existing id. -/
theorem addPatient_spec (f : PatientFields) (now : Nat) (s : Store) :
    ((addPatient f now s).1.id = toString now ∧
     (addPatient f now s).1.history = [] ∧
     (addPatient f now s).1.name = f.name ∧
     (addPatient f now s).1.age = f.age ∧
     (addPatient f now s).1.condition = f.condition ∧
     (addPatient f now s).1.lastUpdate = f.lastUpdate ∧
     (addPatient f now s).1.status = f.status ∧
     (addPatient f now s).1.img = f.img) ∧
    (addPatient f now s).2 = some ((addPatient f now s).1 :: (getPatients s).1) ∧
    (getPatient (toString now) (addPatient f now s).2).1 = some (addPatient f now s).1 ∧
    (toString now ∉ (getPatients s).1.map PatientRecord.id →
      ((getPatients (addPatient f now s).2).1.countP
        (fun p => p.id == toString now)) = 1) := by
  refine ⟨⟨rfl, rfl, rfl, rfl, rfl, rfl, rfl, rfl⟩, rfl, ?_, ?_⟩
  · show ((addPatient f now s).1 :: (getPatients s).1).find?
        (fun p => p.id == toString now) = some (addPatient f now s).1
    exact List.find?_cons_of_pos _ (beq_self_eq_true (toString now))
  · intro hni
    show ((addPatient f now s).1 :: (getPatients s).1).countP
        (fun p => p.id == toString now) = 1
    have hz : (getPatients s).1.countP (fun p => p.id == toString now) = 0 := by
      rw [List.countP_eq_zero]
      intro q hq
      simp only [beq_iff_eq]
      intro hcontra
      exact hni (List.mem_map.mpr ⟨q, hq, hcontra⟩)
    have hid : (addPatient f now s).1.id = toString now := rfl
    simp [List.countP_cons, hz, hid]

/-- Witness for C6: adding a patient at clock 99 over the seeded store (no
collision with seed ids "1", "2", "3") yields a roster with exactly one
record carrying id "99". -/
theorem addPatient_spec_witness :
    (getPatients (addPatient testFields 99 (some SEED_DATA)).2).1.countP
      (fun p => p.id == toString 99) = 1 :=
  (addPatient_spec testFields 99 (some SEED_DATA)).2.2.2 (by decide)

/-- Claim C7: when no blob exists, `getPatients` seeds exactly the three
literal demo records with ids "1", "2", "3" and persists them before
returning; when a blob exists it returns the stored roster as-is with no
write beyond re-storing the same value. -/
theorem getPatients_seeds :
    getPatients none = (SEED_DATA, some SEED_DATA) ∧
    SEED_DATA.length = 3 ∧
    SEED_DATA.map PatientRecord.id = ["1", "2", "3"] ∧
    (∀ ps, getPatients (some ps) = (ps, some ps)) :=
  ⟨rfl, rfl, rfl, fun _ => rfl⟩

/-- Claim C4: on any failure of the lesion-classification call — thrown
transport error, absent or empty response text, or a parse failure — the total
function `analyzeLesion` returns exactly the literal fallback result:
diagnosis "Analysis Failed", confidence 0, the single probability entry
"Unknown", severity "Low", and the single recommendation
"Manual review required". -/
theorem analyzeLesion_failure_fallback :
    (∀ parse, analyzeLesion (Except.error ()) parse = fallbackAnalysis) ∧
    (∀ parse, analyzeLesion (Except.ok none) parse = fallbackAnalysis) ∧
    (∀ parse, analyzeLesion (Except.ok (some "")) parse = fallbackAnalysis) ∧
    (∀ parse s, parse s = none →
      analyzeLesion (Except.ok (some s)) parse = fallbackAnalysis) ∧
    fallbackAnalysis.diagnosis = "Analysis Failed" ∧
    fallbackAnalysis.confidence = 0 ∧
    fallbackAnalysis.probabilities = [("Unknown", 1)] ∧
    fallbackAnalysis.severity = "Low" ∧
    fallbackAnalysis.recommendations = ["Manual review required"] := by
  refine ⟨fun parse => rfl, fun parse => rfl, fun parse => rfl,
    fun parse s h => ?_, rfl, rfl, rfl, rfl, rfl⟩
  unfold analyzeLesion
  cases hs : (s == "") with
  | true => simp [hs]
  | false => simp [hs, h]

/-- Witness for C4: a response whose body fails to parse yields the literal
fallback result. -/
theorem analyzeLesion_failure_fallback_witness :
    analyzeLesion (Except.ok (some "not json")) (fun _ => none) = fallbackAnalysis :=
  analyzeLesion_failure_fallback.2.2.2.1 (fun _ => none) "not json" rfl

/-- Claim C10: when the `verifySkinPhoto` call completes without throwing but
the response carries no answer text at all, the function returns `false`: the
fail-open `true` applies only to thrown transport failures. -/
theorem verifySkinPhoto_no_text : verifySkinPhoto (Except.ok none) = false := rfl

/-- Counterexample to claim C5 as stated: on the successful answer text
"yes" the function returns `true`, yet "yes" does not contain the substring
"YES" — so "returns true exactly when the model's answer text contains YES"
is false: the code upper-cases the text before the containment test. -/
theorem verifySkinPhoto_literal_cex :
    verifySkinPhoto (Except.ok (some "yes")) = true ∧
      ¬ ("YES".data <:+: "yes".data) :=
  ⟨by decide, fun h => absurd ((hasSubList_iff "YES".data "yes".data).mpr h) (by decide)⟩

/-- Claim C5 (amended): on a thrown transport failure `verifySkinPhoto`
returns `true`; on a successful response with no answer text it returns
`false`; and on answer text `s` it returns `true` exactly when the trimmed,
upper-cased text contains the substring "YES". -/
theorem verifySkinPhoto_spec :
    (∀ e : Unit, verifySkinPhoto (Except.error e) = true) ∧
    verifySkinPhoto (Except.ok none) = false ∧
    (∀ s, verifySkinPhoto (Except.ok (some s)) = true ↔
      ∃ pre post, pre ++ "YES".data ++ post = (jsToUpper (jsTrim s)).data) :=
  ⟨fun _ => rfl, rfl, fun s => hasSubList_iff "YES".data (jsToUpper (jsTrim s)).data⟩

/-- Claim C8: for every role other than `"NONE"` and every identity payload,
`login` followed by re-running session initialization from the two persisted
keys restores exactly the in-session role and identity; `logout` followed by
re-initialization restores role `"NONE"` with no identity.  (A serialized
identity payload is a nonempty string: `JSON.stringify` of a truthy value is
never empty.) -/
theorem session_restart (r d : String) (st st2 : AuthStorage)
    (hr : r ≠ "NONE") (hr2 : r ≠ "") (hd : d ≠ "") :
    initSession (login r (some d) st).2 = (login r (some d) st).1 ∧
    initSession (logout st2).2 = { role := "NONE", user := none } := by
  constructor
  · show initSession ⟨some r, some d⟩ = ⟨r, some d⟩
    unfold initSession
    have h1 : jsTruthy (some r) = true := by simpa [jsTruthy] using hr2
    have h2 : ((some r : Option String) != some "NONE") = true := by
      simpa using hr
    have h3 : jsTruthy (some d) = true := by simpa [jsTruthy] using hd
    simp [h1, h2, h3]
  · rfl

/-- Witness for C8 with a concrete doctor login over empty auth storage. -/
theorem session_restart_witness :
    initSession (login "DOCTOR" (some "payload") ⟨none, none⟩).2 =
      (login "DOCTOR" (some "payload") ⟨none, none⟩).1 :=
  (session_restart "DOCTOR" "payload" ⟨none, none⟩ ⟨none, none⟩
    (by decide) (by decide) (by decide)).1

end DermoLink
